import Mathlib

/-!
Shallow embedding of `flamingpy/simulations.py`.

The module under study has one core function, `ec_monte_carlo`, plus a
results-ledger block in `__main__`.  The embedding below translates them
into Lean:

* Python `float` parameters (`delta`, `p_swap`) are modelled as `Rat`;
  the engine never computes with them, it only passes them along.
* The external collaborators (`CVLayer` construction, `CVLayer.apply_noise`,
  `CVLayer.measure_hom`, `reduce_macro_and_simulate`, `correct`) are
  duck-typed in the source; they are modelled as a record of functions
  threading an abstract external-world state `σ` (covering their internal
  randomness) and possibly raising an exception `ε` (`Except`).
* Every collaborator invocation is recorded, with its arguments, in an
  event trace, so that claims of the form "collaborator X is never
  invoked" are statable.  A run that raises carries the trace of the
  calls made up to and including the raising call.
* Python `trials` is an `Int`; `range(trials)` for negative `trials` is
  empty, which `Int.toNat` reproduces.
-/

namespace FP

/-- Values stored in the configuration dictionaries of `ec_monte_carlo`
(`cv_noise`, `decoder`, `weight_options`). -/
inductive CfgVal where
  | str (s : String)
  | bool (b : Bool)
  | int (n : Int)
  | num (q : Rat)
  deriving DecidableEq

/-- A Python dict literal with string keys, as an association list (the
source only ever builds literal dicts and passes them on). -/
abbrev Dict := List (String × CfgVal)

/-- The abstract code object: the engine only reads `code.graph` and
`code.all_syndrome_inds`, and passes the object itself to `correct`;
both fields are opaque handles here. -/
structure Code where
  graph : Nat
  all_syndrome_inds : List Nat
  deriving DecidableEq

/-- The passive bundle `[RHG_macro, RHG_lattice, CVRHG_reduced, bs_network]`
built in `__main__` and splatted into `reduce_macro_and_simulate`; the
engine treats the four components as opaque handles. -/
structure PassiveObjects where
  macro_lattice : Nat
  base_lattice : Nat
  noise_layer : Nat
  bs_network : Nat
  deriving DecidableEq

/-- One recorded collaborator interaction of `ec_monte_carlo`, with the
arguments the source passes at that call site.  `readGraph` records the
read of `code.graph` (line `code_lattice = code.graph`), which is not a
collaborator call. -/
inductive Event where
  | readGraph (graph : Nat)
  | cvlayerInit (graph : Nat) (p_swap : Rat)
  | applyNoise (noise : Dict)
  | measureHom (quad : String) (inds : List Nat)
  | reduceMacroAndSimulate (objs : PassiveObjects) (p_swap delta : Rat)
  | correctCall (code : Code) (decoder weight_options : Dict)
  deriving DecidableEq

/-- Whether an event is one of the five collaborator calls (everything
except the pure read of `code.graph`). -/
def Event.isCollaboratorCall : Event → Bool
  | .readGraph _ => false
  | _ => true

/-- Whether an event is one of the three active-pipeline-only collaborator
calls: `CVLayer(...)`, `apply_noise`, `measure_hom`. -/
def Event.isActiveOnly : Event → Bool
  | .cvlayerInit _ _ => true
  | .applyNoise _ => true
  | .measureHom _ _ => true
  | _ => false

/-- Whether an event is a `reduce_macro_and_simulate` call. -/
def Event.isReduceCall : Event → Bool
  | .reduceMacroAndSimulate _ _ _ => true
  | _ => false

/-- Whether an event is a `CVLayer(...)` construction. -/
def Event.isInitCall : Event → Bool
  | .cvlayerInit _ _ => true
  | _ => false

/-- Whether an event is the read of `code.graph`. -/
def Event.isReadGraph : Event → Bool
  | .readGraph _ => true
  | _ => false

/-- The external collaborators of `ec_monte_carlo`, threading an abstract
world state `σ` (randomness included) and possibly raising `ε`.
`cvlayer_init` models `CVLayer(code_lattice, p_swap=p_swap)`,
`correct` models `correct(code=code, decoder=decoder,
weight_options=weight_options)` returning the truthy success verdict. -/
structure Collab (σ ε : Type) where
  cvlayer_init : Nat → Rat → σ → Except ε σ
  apply_noise : Dict → σ → Except ε σ
  measure_hom : String → List Nat → σ → Except ε σ
  reduce_macro_and_simulate : PassiveObjects → Rat → Rat → σ → Except ε σ
  correct : Code → Dict → Dict → σ → Except ε (Bool × σ)

/-- The `decoder` dict built in the `passive_objects is not None` branch. -/
def passive_decoder : Dict := [("outer", CfgVal.str "MWPM")]

/-- The `weight_options` dict built in the `passive_objects is not None`
branch. -/
def passive_weight_options : Dict :=
  [("method", CfgVal.str "blueprint"), ("prob_precomputed", CfgVal.bool true)]

/-- The `cv_noise` dict built in the `else` (active) branch. -/
def active_cv_noise (delta : Rat) : Dict :=
  [("noise", CfgVal.str "grn"), ("delta", CfgVal.num delta),
   ("sampling_order", CfgVal.str "initial")]

/-- The `decoder` dict built in the `else` (active) branch. -/
def active_decoder : Dict := [("inner", CfgVal.str "basic"), ("outer", CfgVal.str "MWPM")]

/-- The `weight_options` dict built in the `else` (active) branch. -/
def active_weight_options (delta : Rat) : Dict :=
  [("method", CfgVal.str "blueprint"), ("integer", CfgVal.bool false),
   ("multiplier", CfgVal.int 1), ("delta", CfgVal.num delta)]

/-- The trace of a run outcome: the events recorded up to the point the
run finished, whether normally or by a propagated exception. -/
def result_trace {α σ ε : Type} : Except (ε × List Event) (α × List Event × σ) → List Event
  | .error (_, tr) => tr
  | .ok (_, tr, _) => tr

/-- Body of the `for _ in range(trials)` loop of `ec_monte_carlo`: the
per-trial `if passive_objects is not None` re-test (source line 64),
one pipeline's collaborator calls, then the `correct` call.  Returns the
trial's success verdict, the events of the trial, and the next world
state; a raising collaborator aborts the body with the exception and the
events up to and including the raising call.  `code_lattice` and
`cv_noise` are the bindings made before the loop in the active case (in
the passive case the source leaves these Python names unbound and the
passive arm never reads them; the arguments are ignored there). -/
def trial_body {σ ε : Type} (C : Collab σ ε) (code : Code) (delta p_swap : Rat)
    (passive_objects : Option PassiveObjects) (code_lattice : Nat)
    (cv_noise decoder weight_options : Dict) (s : σ) :
    Except (ε × List Event) (Bool × List Event × σ) :=
  match passive_objects with
  | some objs =>
    match C.reduce_macro_and_simulate objs p_swap delta s with
    | .error e => .error (e, [Event.reduceMacroAndSimulate objs p_swap delta])
    | .ok s =>
      match C.correct code decoder weight_options s with
      | .error e => .error (e, [Event.reduceMacroAndSimulate objs p_swap delta,
                                Event.correctCall code decoder weight_options])
      | .ok (result, s) =>
        .ok (result, [Event.reduceMacroAndSimulate objs p_swap delta,
                      Event.correctCall code decoder weight_options], s)
  | none =>
    match C.cvlayer_init code_lattice p_swap s with
    | .error e => .error (e, [Event.cvlayerInit code_lattice p_swap])
    | .ok s =>
      match C.apply_noise cv_noise s with
      | .error e => .error (e, [Event.cvlayerInit code_lattice p_swap,
                                Event.applyNoise cv_noise])
      | .ok s =>
        match C.measure_hom "p" code.all_syndrome_inds s with
        | .error e => .error (e, [Event.cvlayerInit code_lattice p_swap,
                                  Event.applyNoise cv_noise,
                                  Event.measureHom "p" code.all_syndrome_inds])
        | .ok s =>
          match C.correct code decoder weight_options s with
          | .error e => .error (e, [Event.cvlayerInit code_lattice p_swap,
                                    Event.applyNoise cv_noise,
                                    Event.measureHom "p" code.all_syndrome_inds,
                                    Event.correctCall code decoder weight_options])
          | .ok (result, s) =>
            .ok (result, [Event.cvlayerInit code_lattice p_swap,
                          Event.applyNoise cv_noise,
                          Event.measureHom "p" code.all_syndrome_inds,
                          Event.correctCall code decoder weight_options], s)

/-- The `for _ in range(trials)` loop with the running
`successes += result` accumulation: returns the success count over `n`
trials, the concatenated trace, and the final world state; an exception
in any trial aborts the loop there, keeping the trace of the completed
trials plus the aborted one. -/
def trial_loop {σ ε : Type} (C : Collab σ ε) (code : Code) (delta p_swap : Rat)
    (passive_objects : Option PassiveObjects) (code_lattice : Nat)
    (cv_noise decoder weight_options : Dict) :
    Nat → σ → Except (ε × List Event) (Int × List Event × σ)
  | 0, s => .ok (0, [], s)
  | n + 1, s =>
    match trial_body C code delta p_swap passive_objects code_lattice cv_noise
        decoder weight_options s with
    | .error etr => .error etr
    | .ok (result, tr, s1) =>
      match trial_loop C code delta p_swap passive_objects code_lattice cv_noise
          decoder weight_options n s1 with
      | .error (e, tr2) => .error (e, tr ++ tr2)
      | .ok (successes, tr2, s2) =>
        .ok ((if result then 1 else 0) + successes, tr ++ tr2, s2)

/-- Embedding of `ec_monte_carlo(code, trials, delta, p_swap,
passive_objects=None)`: the pre-loop configuration branch (source lines
46-60; the active branch reads `code.graph` once), the trial loop, and
`errors = trials - successes`.  Returns the error count, the full event
trace, and the final world state, or propagates the first collaborator
exception unmodified together with the trace up to it. -/
def ec_monte_carlo {σ ε : Type} (C : Collab σ ε) (code : Code) (trials : Int)
    (delta p_swap : Rat) (passive_objects : Option PassiveObjects) (s0 : σ) :
    Except (ε × List Event) (Int × List Event × σ) :=
  match passive_objects with
  | some _ =>
    let decoder := passive_decoder
    let weight_options := passive_weight_options
    match trial_loop C code delta p_swap passive_objects 0 [] decoder weight_options
        trials.toNat s0 with
    | .error etr => .error etr
    | .ok (successes, tr, s) => .ok (trials - successes, tr, s)
  | none =>
    let code_lattice := code.graph
    let cv_noise := active_cv_noise delta
    let decoder := active_decoder
    let weight_options := active_weight_options delta
    match trial_loop C code delta p_swap passive_objects code_lattice cv_noise decoder
        weight_options trials.toNat s0 with
    | .error (e, tr) => .error (e, Event.readGraph code.graph :: tr)
    | .ok (successes, tr, s) => .ok (trials - successes, Event.readGraph code.graph :: tr, s)

/-- The header row written by the `__main__` results-ledger block when it
creates `sims_results.csv`. -/
def sims_header : List String :=
  ["distance", "ec", "boundaries", "delta", "p_swap", "errors_py", "trials", "current_time"]

/-- Embedding of the results-ledger block of `__main__` (source lines
137-160): the target file's contents are `none` when the file does not
exist yet.  `open(file_name, "x")` succeeds only then, and the header row
plus the data row are written; on `FileExistsError` the file is opened
for appending and only the data row is written.  Returns the file's
contents after the run. -/
def write_results (target : Option (List (List String))) (data_row : List String) :
    List (List String) :=
  match target with
  | none => [sims_header, data_row]
  | some rows => rows ++ [data_row]

/-- A stub collaborator family for concrete runs: the world state counts
the `correct` calls made so far, and the verdict of the `n`-th `correct`
call is `f n`; no collaborator raises. -/
def streamCollab (f : Nat → Bool) : Collab Nat Empty where
  cvlayer_init := fun _ _ s => .ok s
  apply_noise := fun _ s => .ok s
  measure_hom := fun _ _ s => .ok s
  reduce_macro_and_simulate := fun _ _ _ s => .ok s
  correct := fun _ _ _ s => .ok (f s, s + 1)

/-- A stub collaborator family whose `correct` raises `msg` on its `m`-th
call (counting from 0) and returns success otherwise. -/
def failAtCollab (m : Nat) (msg : String) : Collab Nat String where
  cvlayer_init := fun _ _ s => .ok s
  apply_noise := fun _ s => .ok s
  measure_hom := fun _ _ s => .ok s
  reduce_macro_and_simulate := fun _ _ _ s => .ok s
  correct := fun _ _ _ s => if s = m then .error msg else .ok (true, s + 1)

/-- The two events of one passive-pipeline trial. -/
def passive_block (code : Code) (objs : PassiveObjects) (p_swap delta : Rat)
    (decoder weight_options : Dict) : List Event :=
  [Event.reduceMacroAndSimulate objs p_swap delta,
   Event.correctCall code decoder weight_options]

/-- The four events of one active-pipeline trial. -/
def active_block (code : Code) (p_swap : Rat) (code_lattice : Nat)
    (cv_noise decoder weight_options : Dict) : List Event :=
  [Event.cvlayerInit code_lattice p_swap, Event.applyNoise cv_noise,
   Event.measureHom "p" code.all_syndrome_inds,
   Event.correctCall code decoder weight_options]

/-- The events of one trial under the given pipeline selection. -/
def mode_block (code : Code) (delta p_swap : Rat) (passive_objects : Option PassiveObjects)
    (code_lattice : Nat) (cv_noise decoder weight_options : Dict) : List Event :=
  match passive_objects with
  | some objs => passive_block code objs p_swap delta decoder weight_options
  | none => active_block code p_swap code_lattice cv_noise decoder weight_options

/-- The block `b` concatenated `n` times. -/
def blockRepeat (b : List Event) : Nat → List Event
  | 0 => []
  | n + 1 => b ++ blockRepeat b n

/-- The `correct`-call count after running `n` further trials of a
`streamCollab` run whose counter stands at `s`. -/
def successCount (f : Nat → Bool) : Nat → Nat → Int
  | _, 0 => 0
  | s, n + 1 => (if f s then 1 else 0) + successCount f (s + 1) n

lemma trial_body_trace_all {σ ε : Type} (C : Collab σ ε) (code : Code) (delta p_swap : Rat)
    (passive_objects : Option PassiveObjects) (code_lattice : Nat)
    (cv_noise decoder weight_options : Dict) (s : σ) (P : Event → Bool)
    (hP : (mode_block code delta p_swap passive_objects code_lattice cv_noise decoder
      weight_options).all P = true) :
    (result_trace (trial_body C code delta p_swap passive_objects code_lattice cv_noise
      decoder weight_options s)).all P = true := by
  cases passive_objects with
  | some objs =>
    simp only [mode_block, passive_block, List.all_cons, List.all_nil, Bool.and_true,
      Bool.and_eq_true] at hP
    simp only [trial_body]
    cases hr : C.reduce_macro_and_simulate objs p_swap delta s with
    | error e => simp [hr, result_trace, hP.1]
    | ok s1 =>
      cases hc : C.correct code decoder weight_options s1 with
      | error e => simp [hr, hc, result_trace, hP.1, hP.2]
      | ok rs => cases rs with
        | mk r s2 => simp [hr, hc, result_trace, hP.1, hP.2]
  | none =>
    simp only [mode_block, active_block, List.all_cons, List.all_nil, Bool.and_true,
      Bool.and_eq_true] at hP
    obtain ⟨h1, h2, h3, h4⟩ := hP
    simp only [trial_body]
    cases hi : C.cvlayer_init code_lattice p_swap s with
    | error e => simp [hi, result_trace, h1]
    | ok s1 =>
      cases hn : C.apply_noise cv_noise s1 with
      | error e => simp [hi, hn, result_trace, h1, h2]
      | ok s2 =>
        cases hm : C.measure_hom "p" code.all_syndrome_inds s2 with
        | error e => simp [hi, hn, hm, result_trace, h1, h2, h3]
        | ok s3 =>
          cases hc : C.correct code decoder weight_options s3 with
          | error e => simp [hi, hn, hm, hc, result_trace, h1, h2, h3, h4]
          | ok rs => cases rs with
            | mk r s4 => simp [hi, hn, hm, hc, result_trace, h1, h2, h3, h4]

lemma trial_body_ok_trace {σ ε : Type} (C : Collab σ ε) (code : Code) (delta p_swap : Rat)
    (passive_objects : Option PassiveObjects) (code_lattice : Nat)
    (cv_noise decoder weight_options : Dict) (s : σ) (r : Bool) (tr : List Event) (s' : σ)
    (h : trial_body C code delta p_swap passive_objects code_lattice cv_noise decoder
      weight_options s = .ok (r, tr, s')) :
    tr = mode_block code delta p_swap passive_objects code_lattice cv_noise decoder
      weight_options := by
  cases passive_objects with
  | some objs =>
    simp only [trial_body] at h
    cases hr : C.reduce_macro_and_simulate objs p_swap delta s with
    | error e => simp [hr] at h
    | ok s1 =>
      cases hc : C.correct code decoder weight_options s1 with
      | error e => simp [hr, hc] at h
      | ok rs =>
        cases rs with
        | mk r2 s2 =>
          simp only [hr, hc, Except.ok.injEq, Prod.mk.injEq] at h
          obtain ⟨-, htr, -⟩ := h
          rw [← htr]
          simp [mode_block, passive_block]
  | none =>
    simp only [trial_body] at h
    cases hi : C.cvlayer_init code_lattice p_swap s with
    | error e => simp [hi] at h
    | ok s1 =>
      cases hn : C.apply_noise cv_noise s1 with
      | error e => simp [hi, hn] at h
      | ok s2 =>
        cases hm : C.measure_hom "p" code.all_syndrome_inds s2 with
        | error e => simp [hi, hn, hm] at h
        | ok s3 =>
          cases hc : C.correct code decoder weight_options s3 with
          | error e => simp [hi, hn, hm, hc] at h
          | ok rs =>
            cases rs with
            | mk r2 s4 =>
              simp only [hi, hn, hm, hc, Except.ok.injEq, Prod.mk.injEq] at h
              obtain ⟨-, htr, -⟩ := h
              rw [← htr]
              simp [mode_block, active_block]

lemma trial_loop_trace_all {σ ε : Type} (C : Collab σ ε) (code : Code) (delta p_swap : Rat)
    (passive_objects : Option PassiveObjects) (code_lattice : Nat)
    (cv_noise decoder weight_options : Dict) (P : Event → Bool)
    (hP : (mode_block code delta p_swap passive_objects code_lattice cv_noise decoder
      weight_options).all P = true) :
    ∀ (n : Nat) (s : σ),
      (result_trace (trial_loop C code delta p_swap passive_objects code_lattice cv_noise
        decoder weight_options n s)).all P = true := by
  intro n
  induction n with
  | zero => intro s; simp [trial_loop, result_trace]
  | succ n ih =>
    intro s
    simp only [trial_loop]
    cases hb : trial_body C code delta p_swap passive_objects code_lattice cv_noise
        decoder weight_options s with
    | error etr =>
      obtain ⟨e, tr⟩ := etr
      have hball := trial_body_trace_all C code delta p_swap passive_objects code_lattice
        cv_noise decoder weight_options s P hP
      rw [hb] at hball
      simpa [result_trace] using hball
    | ok rts =>
      obtain ⟨r, tr, s1⟩ := rts
      have htr : tr = mode_block code delta p_swap passive_objects code_lattice cv_noise
          decoder weight_options :=
        trial_body_ok_trace C code delta p_swap passive_objects code_lattice cv_noise
          decoder weight_options s r tr s1 hb
      have h2 := ih s1
      cases hl : trial_loop C code delta p_swap passive_objects code_lattice cv_noise
          decoder weight_options n s1 with
      | error etr2 =>
        obtain ⟨e2, tr2⟩ := etr2
        rw [hl] at h2
        simp only [result_trace] at h2
        simp [hb, hl, result_trace, List.all_append, htr, hP, h2]
      | ok sts =>
        obtain ⟨succ2, tr2, s2⟩ := sts
        rw [hl] at h2
        simp only [result_trace] at h2
        simp [hb, hl, result_trace, List.all_append, htr, hP, h2]

lemma trial_loop_ok {σ ε : Type} (C : Collab σ ε) (code : Code) (delta p_swap : Rat)
    (passive_objects : Option PassiveObjects) (code_lattice : Nat)
    (cv_noise decoder weight_options : Dict) :
    ∀ (n : Nat) (s : σ) (succ : Int) (tr : List Event) (s' : σ),
      trial_loop C code delta p_swap passive_objects code_lattice cv_noise decoder
        weight_options n s = .ok (succ, tr, s') →
      tr = blockRepeat (mode_block code delta p_swap passive_objects code_lattice cv_noise
        decoder weight_options) n ∧ 0 ≤ succ ∧ succ ≤ (n : Int) := by
  intro n
  induction n with
  | zero =>
    intro s succ tr s' h
    simp only [trial_loop, Except.ok.injEq, Prod.mk.injEq] at h
    obtain ⟨h1, h2, -⟩ := h
    simp [← h1, ← h2, blockRepeat]
  | succ n ih =>
    intro s succ tr s' h
    simp only [trial_loop] at h
    cases hb : trial_body C code delta p_swap passive_objects code_lattice cv_noise
        decoder weight_options s with
    | error etr => simp [hb] at h
    | ok rts =>
      obtain ⟨r, tr1, s1⟩ := rts
      simp only [hb] at h
      cases hl : trial_loop C code delta p_swap passive_objects code_lattice cv_noise
          decoder weight_options n s1 with
      | error etr2 => simp [hl] at h
      | ok sts =>
        obtain ⟨succ2, tr2, s2⟩ := sts
        simp only [hl, Except.ok.injEq, Prod.mk.injEq] at h
        obtain ⟨hsucc, htr, -⟩ := h
        have hbody := trial_body_ok_trace C code delta p_swap passive_objects code_lattice
          cv_noise decoder weight_options s r tr1 s1 hb
        obtain ⟨htr2, hlo, hhi⟩ := ih s1 succ2 tr2 s2 hl
        refine ⟨?_, ?_, ?_⟩
        · rw [← htr, hbody, htr2, blockRepeat]
        · rw [← hsucc]; cases r <;> simp <;> omega
        · rw [← hsucc]
          push_cast
          cases r <;> simp <;> omega

lemma trial_body_stream (f : Nat → Bool) (code : Code) (delta p_swap : Rat)
    (passive_objects : Option PassiveObjects) (code_lattice : Nat)
    (cv_noise decoder weight_options : Dict) (s : Nat) :
    trial_body (streamCollab f) code delta p_swap passive_objects code_lattice cv_noise
      decoder weight_options s =
    .ok (f s, mode_block code delta p_swap passive_objects code_lattice cv_noise decoder
      weight_options, s + 1) := by
  cases passive_objects <;>
    simp [trial_body, streamCollab, mode_block, passive_block, active_block]

lemma trial_loop_stream (f : Nat → Bool) (code : Code) (delta p_swap : Rat)
    (passive_objects : Option PassiveObjects) (code_lattice : Nat)
    (cv_noise decoder weight_options : Dict) :
    ∀ (n s : Nat),
      trial_loop (streamCollab f) code delta p_swap passive_objects code_lattice cv_noise
        decoder weight_options n s =
      .ok (successCount f s n,
        blockRepeat (mode_block code delta p_swap passive_objects code_lattice cv_noise
          decoder weight_options) n, s + n) := by
  intro n
  induction n with
  | zero => intro s; simp [trial_loop, blockRepeat, successCount]
  | succ n ih =>
    intro s
    have harith : s + 1 + n = s + (n + 1) := by omega
    simp only [trial_loop, trial_body_stream, ih (s + 1), successCount, blockRepeat, harith]

lemma successCount_eq_countP (f : Nat → Bool) : ∀ (n s : Nat),
    successCount f s n = ((List.range' s n).countP f : Int) := by
  intro n
  induction n with
  | zero => intro s; simp [successCount]
  | succ n ih =>
    intro s
    rw [successCount, ih (s + 1), List.range']
    rw [List.countP_cons]
    push_cast
    cases hf : f s <;> simp [hf]
    omega

lemma ec_trace_passive {σ ε : Type} (C : Collab σ ε) (code : Code) (trials : Int)
    (delta p_swap : Rat) (objs : PassiveObjects) (s0 : σ) :
    result_trace (ec_monte_carlo C code trials delta p_swap (some objs) s0) =
      result_trace (trial_loop C code delta p_swap (some objs) 0 [] passive_decoder
        passive_weight_options trials.toNat s0) := by
  simp only [ec_monte_carlo]
  cases h : trial_loop C code delta p_swap (some objs) 0 [] passive_decoder
      passive_weight_options trials.toNat s0 with
  | error etr => obtain ⟨e, tr⟩ := etr; simp [result_trace]
  | ok rts => obtain ⟨succ, tr, s⟩ := rts; simp [result_trace]

lemma ec_trace_active {σ ε : Type} (C : Collab σ ε) (code : Code) (trials : Int)
    (delta p_swap : Rat) (s0 : σ) :
    result_trace (ec_monte_carlo C code trials delta p_swap none s0) =
      Event.readGraph code.graph ::
        result_trace (trial_loop C code delta p_swap none code.graph (active_cv_noise delta)
          active_decoder (active_weight_options delta) trials.toNat s0) := by
  simp only [ec_monte_carlo]
  cases h : trial_loop C code delta p_swap none code.graph (active_cv_noise delta)
      active_decoder (active_weight_options delta) trials.toNat s0 with
  | error etr => obtain ⟨e, tr⟩ := etr; simp [result_trace]
  | ok rts => obtain ⟨succ, tr, s⟩ := rts; simp [result_trace]

lemma ec_ok_passive {σ ε : Type} (C : Collab σ ε) (code : Code) (trials : Int)
    (delta p_swap : Rat) (objs : PassiveObjects) (s0 : σ) (errors : Int) (tr : List Event)
    (s : σ)
    (h : ec_monte_carlo C code trials delta p_swap (some objs) s0 = .ok (errors, tr, s)) :
    ∃ succ : Int,
      trial_loop C code delta p_swap (some objs) 0 [] passive_decoder
        passive_weight_options trials.toNat s0 = .ok (succ, tr, s) ∧
      errors = trials - succ := by
  simp only [ec_monte_carlo] at h
  cases hl : trial_loop C code delta p_swap (some objs) 0 [] passive_decoder
      passive_weight_options trials.toNat s0 with
  | error etr => obtain ⟨e, tr2⟩ := etr; simp [hl] at h
  | ok rts =>
    obtain ⟨succ, tr2, s2⟩ := rts
    simp only [hl, Except.ok.injEq, Prod.mk.injEq] at h
    obtain ⟨he, htr, hs⟩ := h
    exact ⟨succ, by rw [htr, hs], he.symm⟩

lemma ec_ok_active {σ ε : Type} (C : Collab σ ε) (code : Code) (trials : Int)
    (delta p_swap : Rat) (s0 : σ) (errors : Int) (tr : List Event) (s : σ)
    (h : ec_monte_carlo C code trials delta p_swap none s0 = .ok (errors, tr, s)) :
    ∃ (succ : Int) (tr2 : List Event),
      trial_loop C code delta p_swap none code.graph (active_cv_noise delta) active_decoder
        (active_weight_options delta) trials.toNat s0 =.ok (succ, tr2, s) ∧
      errors = trials - succ ∧ tr = Event.readGraph code.graph :: tr2 := by
  simp only [ec_monte_carlo] at h
  cases hl : trial_loop C code delta p_swap none code.graph (active_cv_noise delta)
      active_decoder (active_weight_options delta) trials.toNat s0 with
  | error etr => obtain ⟨e, tr2⟩ := etr; simp [hl] at h
  | ok rts =>
    obtain ⟨succ, tr2, s2⟩ := rts
    simp only [hl, Except.ok.injEq, Prod.mk.injEq] at h
    obtain ⟨he, htr, hs⟩ := h
    exact ⟨succ, tr2, by rw [hs], he.symm, htr.symm⟩

/-- C1: with `trials = 0` the loop never executes: `ec_monte_carlo` returns
`errors = 0` with the world state untouched, and the run's trace holds no
collaborator call (no `CVLayer` construction, `apply_noise`, `measure_hom`,
`reduce_macro_and_simulate` or `correct`), in both the passive and the
active pipeline — in the active pipeline only the pure read of `code.graph`
happens. -/
theorem C1_trials_zero_no_collaborator {σ ε : Type} (C : Collab σ ε) (code : Code)
    (delta p_swap : Rat) (objs : PassiveObjects) (s0 : σ) :
    ec_monte_carlo C code 0 delta p_swap (some objs) s0 = .ok (0, [], s0) ∧
    ec_monte_carlo C code 0 delta p_swap none s0 =
      .ok (0, [Event.readGraph code.graph], s0) ∧
    ([Event.readGraph code.graph].all fun e => !e.isCollaboratorCall) = true := by
  refine ⟨?_, ?_, by simp [Event.isCollaboratorCall]⟩ <;>
    simp [ec_monte_carlo, trial_loop]

/-- C10: for negative `trials` the loop over `range(trials)` is empty and no
collaborator is invoked, but `errors = trials - 0 = trials` is returned
unchanged: the result is the negative trial count itself, so the
`0 <= errors <= trials` guarantee does not extend to negative inputs and no
non-negativity check exists in the engine. -/
theorem C10_negative_trials_returned {σ ε : Type} (C : Collab σ ε) (code : Code)
    (trials : Int) (delta p_swap : Rat) (objs : PassiveObjects) (s0 : σ)
    (h : trials < 0) :
    ec_monte_carlo C code trials delta p_swap (some objs) s0 = .ok (trials, [], s0) ∧
    ec_monte_carlo C code trials delta p_swap none s0 =
      .ok (trials, [Event.readGraph code.graph], s0) ∧
    trials < 0 := by
  have h0 : trials.toNat = 0 := Int.toNat_of_nonpos h.le
  refine ⟨?_, ?_, h⟩ <;> simp [ec_monte_carlo, h0, trial_loop]

/-- Closed instance of C10 at `trials = -3`. -/
theorem C10_negative_trials_returned_witness :
    ec_monte_carlo (streamCollab fun _ => true) ⟨0, []⟩ (-3) 0 0 (some ⟨0, 0, 0, 0⟩) 0 =
      .ok (-3, [], 0) :=
  (C10_negative_trials_returned (streamCollab fun _ => true) ⟨0, []⟩ (-3) 0 0
    ⟨0, 0, 0, 0⟩ 0 (by decide)).1

/-- C2: whenever a run of `ec_monte_carlo` with `trials = T > 0` finishes
normally, the returned error count satisfies `0 <= errors <= T`, for every
collaborator family and in both pipelines. -/
theorem C2_errors_between_zero_and_trials {σ ε : Type} (C : Collab σ ε) (code : Code)
    (trials : Int) (delta p_swap : Rat) (passive_objects : Option PassiveObjects) (s0 : σ)
    (errors : Int) (tr : List Event) (s : σ) (hT : 0 < trials)
    (h : ec_monte_carlo C code trials delta p_swap passive_objects s0 =
      .ok (errors, tr, s)) :
    0 ≤ errors ∧ errors ≤ trials := by
  have hcast : (trials.toNat : Int) = trials := Int.toNat_of_nonneg hT.le
  cases passive_objects with
  | some objs =>
    obtain ⟨succ, hl, he⟩ := ec_ok_passive C code trials delta p_swap objs s0 errors tr s h
    obtain ⟨-, h0, h1⟩ := trial_loop_ok C code delta p_swap (some objs) 0 []
      passive_decoder passive_weight_options trials.toNat s0 succ tr s hl
    omega
  | none =>
    obtain ⟨succ, tr2, hl, he, -⟩ := ec_ok_active C code trials delta p_swap s0 errors tr s h
    obtain ⟨-, h0, h1⟩ := trial_loop_ok C code delta p_swap none code.graph
      (active_cv_noise delta) active_decoder (active_weight_options delta) trials.toNat s0
      succ tr2 s hl
    omega

/-- Closed instance of C2: a one-trial passive run with an
always-succeeding decoder stub returns `errors = 0`, within bounds. -/
theorem C2_errors_between_zero_and_trials_witness : (0 : Int) ≤ 0 ∧ (0 : Int) ≤ 1 :=
  C2_errors_between_zero_and_trials (streamCollab fun _ => true) ⟨0, []⟩ 1 0 0
    (some ⟨0, 0, 0, 0⟩) 0 0
    [Event.reduceMacroAndSimulate ⟨0, 0, 0, 0⟩ 0 0,
     Event.correctCall ⟨0, []⟩ passive_decoder passive_weight_options] 1
    (by decide) rfl

lemma ec_stream_ok (f : Nat → Bool) (T : Nat) (code : Code) (delta p_swap : Rat)
    (passive_objects : Option PassiveObjects) :
    ∃ tr, ec_monte_carlo (streamCollab f) code (T : Int) delta p_swap passive_objects 0 =
      .ok ((T : Int) - ((List.range T).countP f : Int), tr, T) := by
  have hT : ((T : Int)).toNat = T := Int.toNat_natCast T
  have hsucc : successCount f 0 T = ((List.range T).countP f : Int) := by
    rw [successCount_eq_countP, List.range_eq_range']
  cases passive_objects with
  | some objs =>
    refine ⟨blockRepeat (mode_block code delta p_swap (some objs) 0 [] passive_decoder
      passive_weight_options) T, ?_⟩
    simp only [ec_monte_carlo, hT, trial_loop_stream, Nat.zero_add, hsucc]
  | none =>
    refine ⟨Event.readGraph code.graph :: blockRepeat (mode_block code delta p_swap none
      code.graph (active_cv_noise delta) active_decoder (active_weight_options delta)) T, ?_⟩
    simp only [ec_monte_carlo, hT, trial_loop_stream, Nat.zero_add, hsucc]

lemma countP_range_lt (k T : Nat) :
    (List.range T).countP (fun i => decide (i < k)) = min k T := by
  induction T with
  | zero => simp
  | succ T ih =>
    rw [List.range_succ, List.countP_append, ih]
    by_cases hTk : T < k <;> simp [List.countP_cons, hTk] <;> omega

/-- C3: with a deterministic decoder-verdict stream `f` (the stub's `n`-th
`correct` call returns `f n`), `ec_monte_carlo` over `T` trials returns
exactly `T` minus the number of success verdicts, i.e. the count of
non-success verdicts, in either pipeline; in particular an all-success stub
yields `0`, an all-failure stub yields `T`, and a stub succeeding on exactly
the first `k <= T` trials yields `T - k`. -/
theorem C3_errors_count_nonsuccess (f : Nat → Bool) (T : Nat) (code : Code)
    (delta p_swap : Rat) (passive_objects : Option PassiveObjects) :
    (∃ tr, ec_monte_carlo (streamCollab f) code (T : Int) delta p_swap passive_objects 0 =
      .ok ((T : Int) - ((List.range T).countP f : Int), tr, T)) ∧
    (∃ tr, ec_monte_carlo (streamCollab fun _ => true) code (T : Int) delta p_swap
      passive_objects 0 = .ok (0, tr, T)) ∧
    (∃ tr, ec_monte_carlo (streamCollab fun _ => false) code (T : Int) delta p_swap
      passive_objects 0 = .ok ((T : Int), tr, T)) ∧
    (∀ k : Nat, k ≤ T →
      ∃ tr, ec_monte_carlo (streamCollab fun i => decide (i < k)) code (T : Int) delta
        p_swap passive_objects 0 = .ok ((T : Int) - (k : Int), tr, T)) := by
  refine ⟨ec_stream_ok f T code delta p_swap passive_objects, ?_, ?_, ?_⟩
  · obtain ⟨tr, h⟩ := ec_stream_ok (fun _ => true) T code delta p_swap passive_objects
    refine ⟨tr, ?_⟩
    simpa [List.length_range] using h
  · obtain ⟨tr, h⟩ := ec_stream_ok (fun _ => false) T code delta p_swap passive_objects
    refine ⟨tr, ?_⟩
    simpa using h
  · intro k hk
    obtain ⟨tr, h⟩ := ec_stream_ok (fun i => decide (i < k)) T code delta p_swap
      passive_objects
    refine ⟨tr, ?_⟩
    rw [countP_range_lt, Nat.min_eq_left hk] at h
    exact h

/-- Closed instance of C3: three trials, success on exactly the first two,
yields one error (the `k <= T` hypothesis of the last conjunct discharged
at `k = 2`, `T = 3`). -/
theorem C3_errors_count_nonsuccess_witness :
    ∃ tr, ec_monte_carlo (streamCollab fun i => decide (i < 2)) ⟨0, []⟩ (3 : Int) 0 0
      (some ⟨0, 0, 0, 0⟩) 0 = .ok ((3 : Int) - (2 : Int), tr, 3) :=
  (C3_errors_count_nonsuccess (fun i => decide (i < 2)) 3 ⟨0, []⟩ 0 0
    (some ⟨0, 0, 0, 0⟩)).2.2.2 2 (by decide)

/-- C4: pipeline selection is exclusive in every run (normal or aborted):
with a passive bundle supplied, no `CVLayer` construction, `apply_noise` or
`measure_hom` event ever occurs; with it absent, no
`reduce_macro_and_simulate` event ever occurs. -/
theorem C4_exactly_one_pipeline {σ ε : Type} (C : Collab σ ε) (code : Code) (trials : Int)
    (delta p_swap : Rat) (objs : PassiveObjects) (s0 : σ) :
    ((result_trace (ec_monte_carlo C code trials delta p_swap (some objs) s0)).all
      fun e => !e.isActiveOnly) = true ∧
    ((result_trace (ec_monte_carlo C code trials delta p_swap none s0)).all
      fun e => !e.isReduceCall) = true := by
  constructor
  · rw [ec_trace_passive]
    exact trial_loop_trace_all C code delta p_swap (some objs) 0 [] passive_decoder
      passive_weight_options _ (by simp [mode_block, passive_block, Event.isActiveOnly])
      trials.toNat s0
  · rw [ec_trace_active]
    simp only [List.all_cons]
    have h := trial_loop_trace_all C code delta p_swap none code.graph
      (active_cv_noise delta) active_decoder (active_weight_options delta)
      (fun e => !e.isReduceCall)
      (by simp [mode_block, active_block, Event.isReduceCall]) trials.toNat s0
    rw [Bool.and_eq_true]
    exact ⟨by simp [Event.isReduceCall], h⟩

/-- Whether an event's decoder configuration, if any, is the given pair
(`correct` is the only call taking `decoder` and `weight_options`). -/
def Event.usesDecoder (decoder weight_options : Dict) : Event → Bool
  | .correctCall _ d w => decide (d = decoder) && decide (w = weight_options)
  | _ => true

/-- Whether an event's noise configuration, if any, is the given dict
(`apply_noise` is the only call taking `cv_noise`). -/
def Event.usesNoise (cv_noise : Dict) : Event → Bool
  | .applyNoise nz => decide (nz = cv_noise)
  | _ => true

lemma all_not_countP_zero (l : List Event) (p : Event → Bool)
    (h : (l.all fun e => !p e) = true) : l.countP p = 0 := by
  rw [List.countP_eq_zero]
  intro a ha
  have := (List.all_eq_true.mp h) a ha
  simpa using this

/-- C6: `ec_monte_carlo` builds exactly the configuration records named by
the spec — in passive mode `decoder = {outer: MWPM}` and
`weight_options = {method: blueprint, prob_precomputed: True}`; in active
mode `cv_noise = {noise: grn, delta: delta, sampling_order: initial}`,
`decoder = {inner: basic, outer: MWPM}` and `weight_options = {method:
blueprint, integer: False, multiplier: 1, delta: delta}` — every `correct`
and `apply_noise` call of a run carries exactly the mode's records, and
`code.graph` is read exactly once in active mode and never in passive
mode. -/
theorem C6_configuration_records {σ ε : Type} (C : Collab σ ε) (code : Code) (trials : Int)
    (delta p_swap : Rat) (objs : PassiveObjects) (s0 : σ) :
    passive_decoder = [("outer", CfgVal.str "MWPM")] ∧
    passive_weight_options =
      [("method", CfgVal.str "blueprint"), ("prob_precomputed", CfgVal.bool true)] ∧
    active_cv_noise delta = [("noise", CfgVal.str "grn"), ("delta", CfgVal.num delta),
      ("sampling_order", CfgVal.str "initial")] ∧
    active_decoder = [("inner", CfgVal.str "basic"), ("outer", CfgVal.str "MWPM")] ∧
    active_weight_options delta = [("method", CfgVal.str "blueprint"),
      ("integer", CfgVal.bool false), ("multiplier", CfgVal.int 1),
      ("delta", CfgVal.num delta)] ∧
    ((result_trace (ec_monte_carlo C code trials delta p_swap (some objs) s0)).all
      (Event.usesDecoder passive_decoder passive_weight_options)) = true ∧
    (result_trace (ec_monte_carlo C code trials delta p_swap (some objs) s0)).countP
      Event.isReadGraph = 0 ∧
    ((result_trace (ec_monte_carlo C code trials delta p_swap none s0)).all
      (Event.usesDecoder active_decoder (active_weight_options delta))) = true ∧
    ((result_trace (ec_monte_carlo C code trials delta p_swap none s0)).all
      (Event.usesNoise (active_cv_noise delta))) = true ∧
    (result_trace (ec_monte_carlo C code trials delta p_swap none s0)).countP
      Event.isReadGraph = 1 := by
  refine ⟨rfl, rfl, rfl, rfl, rfl, ?_, ?_, ?_, ?_, ?_⟩
  · rw [ec_trace_passive]
    exact trial_loop_trace_all C code delta p_swap (some objs) 0 [] passive_decoder
      passive_weight_options _ (by simp [mode_block, passive_block, Event.usesDecoder])
      trials.toNat s0
  · rw [ec_trace_passive]
    refine all_not_countP_zero _ _ ?_
    exact trial_loop_trace_all C code delta p_swap (some objs) 0 [] passive_decoder
      passive_weight_options _ (by simp [mode_block, passive_block, Event.isReadGraph])
      trials.toNat s0
  · rw [ec_trace_active]
    rw [List.all_cons, Bool.and_eq_true]
    refine ⟨by simp [Event.usesDecoder], ?_⟩
    exact trial_loop_trace_all C code delta p_swap none code.graph (active_cv_noise delta)
      active_decoder (active_weight_options delta) _
      (by simp [mode_block, active_block, Event.usesDecoder]) trials.toNat s0
  · rw [ec_trace_active]
    rw [List.all_cons, Bool.and_eq_true]
    refine ⟨by simp [Event.usesNoise], ?_⟩
    exact trial_loop_trace_all C code delta p_swap none code.graph (active_cv_noise delta)
      active_decoder (active_weight_options delta) _
      (by simp [mode_block, active_block, Event.usesNoise]) trials.toNat s0
  · rw [ec_trace_active]
    rw [List.countP_cons_of_pos _ _ (by simp [Event.isReadGraph])]
    have h0 := all_not_countP_zero _ Event.isReadGraph
      (trial_loop_trace_all C code delta p_swap none code.graph (active_cv_noise delta)
        active_decoder (active_weight_options delta) _
        (by simp [mode_block, active_block, Event.isReadGraph]) trials.toNat s0)
    rw [h0]

lemma filter_blockRepeat (P : Event → Bool) (b : List Event) (x : Event)
    (hb : b.filter P = [x]) : ∀ n, (blockRepeat b n).filter P = List.replicate n x := by
  intro n
  induction n with
  | zero => simp [blockRepeat]
  | succ n ih =>
    rw [blockRepeat, List.filter_append, hb, ih, List.replicate_succ]
    rfl

/-- C9: a normally finishing run never mutates what it was given: in the
passive pipeline each of the `trials` reducer calls carries exactly the
original bundle and parameters (the bundle is passed through unmodified,
once per trial), and in the active pipeline a fresh `CVLayer` handle bound
to `code.graph` and `p_swap` is constructed anew on each of the `trials`
iterations. -/
theorem C9_bundle_unmodified_fresh_handles {σ ε : Type} (C : Collab σ ε) (code : Code)
    (trials : Int) (delta p_swap : Rat) (objs : PassiveObjects) (s0 : σ) (errors : Int)
    (tr : List Event) (s : σ) :
    (ec_monte_carlo C code trials delta p_swap (some objs) s0 = .ok (errors, tr, s) →
      tr.filter Event.isReduceCall =
        List.replicate trials.toNat (Event.reduceMacroAndSimulate objs p_swap delta)) ∧
    (ec_monte_carlo C code trials delta p_swap none s0 = .ok (errors, tr, s) →
      tr.filter Event.isInitCall =
        List.replicate trials.toNat (Event.cvlayerInit code.graph p_swap)) := by
  constructor
  · intro h
    obtain ⟨succ, hl, -⟩ := ec_ok_passive C code trials delta p_swap objs s0 errors tr s h
    obtain ⟨htr, -, -⟩ := trial_loop_ok C code delta p_swap (some objs) 0 []
      passive_decoder passive_weight_options trials.toNat s0 succ tr s hl
    rw [htr]
    exact filter_blockRepeat _ _ _
      (by simp [mode_block, passive_block, Event.isReduceCall]) trials.toNat
  · intro h
    obtain ⟨succ, tr2, hl, -, htr⟩ := ec_ok_active C code trials delta p_swap s0 errors tr
      s h
    obtain ⟨htr2, -, -⟩ := trial_loop_ok C code delta p_swap none code.graph
      (active_cv_noise delta) active_decoder (active_weight_options delta) trials.toNat s0
      succ tr2 s hl
    rw [htr, List.filter_cons_of_neg (by simp [Event.isInitCall]), htr2]
    exact filter_blockRepeat _ _ _
      (by simp [mode_block, active_block, Event.isInitCall]) trials.toNat

/-- Closed instance of C9: one-trial runs of both pipelines with a stub
collaborator family. -/
theorem C9_bundle_unmodified_fresh_handles_witness :
    ([Event.reduceMacroAndSimulate ⟨0, 0, 0, 0⟩ 0 0,
      Event.correctCall ⟨0, []⟩ passive_decoder passive_weight_options].filter
        Event.isReduceCall =
      List.replicate (1 : Int).toNat (Event.reduceMacroAndSimulate ⟨0, 0, 0, 0⟩ 0 0)) ∧
    ([Event.readGraph 0, Event.cvlayerInit 0 0, Event.applyNoise (active_cv_noise 0),
      Event.measureHom "p" [],
      Event.correctCall ⟨0, []⟩ active_decoder (active_weight_options 0)].filter
        Event.isInitCall =
      List.replicate (1 : Int).toNat (Event.cvlayerInit 0 0)) :=
  ⟨(C9_bundle_unmodified_fresh_handles (streamCollab fun _ => true) ⟨0, []⟩ 1 0 0
      ⟨0, 0, 0, 0⟩ 0 0
      [Event.reduceMacroAndSimulate ⟨0, 0, 0, 0⟩ 0 0,
       Event.correctCall ⟨0, []⟩ passive_decoder passive_weight_options] 1).1 rfl,
   (C9_bundle_unmodified_fresh_handles (streamCollab fun _ => true) ⟨0, []⟩ 1 0 0
      ⟨0, 0, 0, 0⟩ 0 0
      [Event.readGraph 0, Event.cvlayerInit 0 0, Event.applyNoise (active_cv_noise 0),
       Event.measureHom "p" [],
       Event.correctCall ⟨0, []⟩ active_decoder (active_weight_options 0)] 1).2 rfl⟩

/-- Reference trial body following the spec's words (§4.2, passive case):
the pipeline is already fixed, so the body performs the reducer call and
the decode with no re-test of the bundle argument. -/
def passive_trial_body {σ ε : Type} (C : Collab σ ε) (code : Code) (delta p_swap : Rat)
    (objs : PassiveObjects) (decoder weight_options : Dict) (s : σ) :
    Except (ε × List Event) (Bool × List Event × σ) :=
  match C.reduce_macro_and_simulate objs p_swap delta s with
  | .error e => .error (e, [Event.reduceMacroAndSimulate objs p_swap delta])
  | .ok s =>
    match C.correct code decoder weight_options s with
    | .error e => .error (e, [Event.reduceMacroAndSimulate objs p_swap delta,
                              Event.correctCall code decoder weight_options])
    | .ok (result, s) =>
      .ok (result, [Event.reduceMacroAndSimulate objs p_swap delta,
                    Event.correctCall code decoder weight_options], s)

/-- Reference trial body following the spec's words (§4.2, active case):
fresh state construction, noise, measurement and decode, with no re-test
of the bundle argument. -/
def active_trial_body {σ ε : Type} (C : Collab σ ε) (code : Code) (_delta p_swap : Rat)
    (code_lattice : Nat) (cv_noise decoder weight_options : Dict) (s : σ) :
    Except (ε × List Event) (Bool × List Event × σ) :=
  match C.cvlayer_init code_lattice p_swap s with
  | .error e => .error (e, [Event.cvlayerInit code_lattice p_swap])
  | .ok s =>
    match C.apply_noise cv_noise s with
    | .error e => .error (e, [Event.cvlayerInit code_lattice p_swap,
                              Event.applyNoise cv_noise])
    | .ok s =>
      match C.measure_hom "p" code.all_syndrome_inds s with
      | .error e => .error (e, [Event.cvlayerInit code_lattice p_swap,
                                Event.applyNoise cv_noise,
                                Event.measureHom "p" code.all_syndrome_inds])
      | .ok s =>
        match C.correct code decoder weight_options s with
        | .error e => .error (e, [Event.cvlayerInit code_lattice p_swap,
                                  Event.applyNoise cv_noise,
                                  Event.measureHom "p" code.all_syndrome_inds,
                                  Event.correctCall code decoder weight_options])
        | .ok (result, s) =>
          .ok (result, [Event.cvlayerInit code_lattice p_swap,
                        Event.applyNoise cv_noise,
                        Event.measureHom "p" code.all_syndrome_inds,
                        Event.correctCall code decoder weight_options], s)

/-- Reference trial loop over the already-selected passive pipeline. -/
def passive_trial_loop {σ ε : Type} (C : Collab σ ε) (code : Code) (delta p_swap : Rat)
    (objs : PassiveObjects) (decoder weight_options : Dict) :
    Nat → σ → Except (ε × List Event) (Int × List Event × σ)
  | 0, s => .ok (0, [], s)
  | n + 1, s =>
    match passive_trial_body C code delta p_swap objs decoder weight_options s with
    | .error etr => .error etr
    | .ok (result, tr, s1) =>
      match passive_trial_loop C code delta p_swap objs decoder weight_options n s1 with
      | .error (e, tr2) => .error (e, tr ++ tr2)
      | .ok (successes, tr2, s2) =>
        .ok ((if result then 1 else 0) + successes, tr ++ tr2, s2)

/-- Reference trial loop over the already-selected active pipeline. -/
def active_trial_loop {σ ε : Type} (C : Collab σ ε) (code : Code) (delta p_swap : Rat)
    (code_lattice : Nat) (cv_noise decoder weight_options : Dict) :
    Nat → σ → Except (ε × List Event) (Int × List Event × σ)
  | 0, s => .ok (0, [], s)
  | n + 1, s =>
    match active_trial_body C code delta p_swap code_lattice cv_noise decoder
        weight_options s with
    | .error etr => .error etr
    | .ok (result, tr, s1) =>
      match active_trial_loop C code delta p_swap code_lattice cv_noise decoder
          weight_options n s1 with
      | .error (e, tr2) => .error (e, tr ++ tr2)
      | .ok (successes, tr2, s2) =>
        .ok ((if result then 1 else 0) + successes, tr ++ tr2, s2)

/-- Reference formulation following the spec's words (§4.2 and §4.4): the
pipeline is selected exactly once at entry from the presence of the
passive bundle and held fixed for the run's duration; the loop body is the
selected pipeline's body, with no per-trial re-evaluation of the mode. -/
def ec_monte_carlo_select_once {σ ε : Type} (C : Collab σ ε) (code : Code) (trials : Int)
    (delta p_swap : Rat) (passive_objects : Option PassiveObjects) (s0 : σ) :
    Except (ε × List Event) (Int × List Event × σ) :=
  match passive_objects with
  | some objs =>
    match passive_trial_loop C code delta p_swap objs passive_decoder
        passive_weight_options trials.toNat s0 with
    | .error etr => .error etr
    | .ok (successes, tr, s) => .ok (trials - successes, tr, s)
  | none =>
    match active_trial_loop C code delta p_swap code.graph (active_cv_noise delta)
        active_decoder (active_weight_options delta) trials.toNat s0 with
    | .error (e, tr) => .error (e, Event.readGraph code.graph :: tr)
    | .ok (successes, tr, s) => .ok (trials - successes, Event.readGraph code.graph :: tr, s)

lemma trial_body_some {σ ε : Type} (C : Collab σ ε) (code : Code) (delta p_swap : Rat)
    (objs : PassiveObjects) (code_lattice : Nat) (cv_noise decoder weight_options : Dict)
    (s : σ) :
    trial_body C code delta p_swap (some objs) code_lattice cv_noise decoder
      weight_options s =
    passive_trial_body C code delta p_swap objs decoder weight_options s := rfl

lemma trial_body_none {σ ε : Type} (C : Collab σ ε) (code : Code) (delta p_swap : Rat)
    (code_lattice : Nat) (cv_noise decoder weight_options : Dict) (s : σ) :
    trial_body C code delta p_swap none code_lattice cv_noise decoder weight_options s =
    active_trial_body C code delta p_swap code_lattice cv_noise decoder weight_options
      s := rfl

lemma trial_loop_some {σ ε : Type} (C : Collab σ ε) (code : Code) (delta p_swap : Rat)
    (objs : PassiveObjects) (code_lattice : Nat) (cv_noise decoder weight_options : Dict) :
    ∀ (n : Nat) (s : σ),
      trial_loop C code delta p_swap (some objs) code_lattice cv_noise decoder
        weight_options n s =
      passive_trial_loop C code delta p_swap objs decoder weight_options n s := by
  intro n
  induction n with
  | zero => intro s; rfl
  | succ n ih =>
    intro s
    simp only [trial_loop, passive_trial_loop, trial_body_some, ih]

lemma trial_loop_none {σ ε : Type} (C : Collab σ ε) (code : Code) (delta p_swap : Rat)
    (code_lattice : Nat) (cv_noise decoder weight_options : Dict) :
    ∀ (n : Nat) (s : σ),
      trial_loop C code delta p_swap none code_lattice cv_noise decoder weight_options
        n s =
      active_trial_loop C code delta p_swap code_lattice cv_noise decoder weight_options
        n s := by
  intro n
  induction n with
  | zero => intro s; rfl
  | succ n ih =>
    intro s
    simp only [trial_loop, active_trial_loop, trial_body_none, ih]

/-- C5: the engine behaves exactly as the reference formulation that
selects the pipeline once at entry from the presence of the passive bundle
and holds it fixed for the whole run — the per-trial re-test in the source
loop can never flip the mode, since `passive_objects` never changes. -/
theorem C5_pipeline_selected_once {σ ε : Type} (C : Collab σ ε) (code : Code)
    (trials : Int) (delta p_swap : Rat) (passive_objects : Option PassiveObjects)
    (s0 : σ) :
    ec_monte_carlo C code trials delta p_swap passive_objects s0 =
      ec_monte_carlo_select_once C code trials delta p_swap passive_objects s0 := by
  cases passive_objects with
  | some objs =>
    simp only [ec_monte_carlo, ec_monte_carlo_select_once, trial_loop_some]
  | none =>
    simp only [ec_monte_carlo, ec_monte_carlo_select_once, trial_loop_none]

lemma trial_loop_error_prop {σ ε : Type} (C : Collab σ ε) (code : Code)
    (delta p_swap : Rat) (passive_objects : Option PassiveObjects) (code_lattice : Nat)
    (cv_noise decoder weight_options : Dict) :
    ∀ (k n : Nat) (s : σ) (succ : Int) (trk trB : List Event) (sk : σ) (e : ε),
      trial_loop C code delta p_swap passive_objects code_lattice cv_noise decoder
        weight_options k s = .ok (succ, trk, sk) →
      trial_body C code delta p_swap passive_objects code_lattice cv_noise decoder
        weight_options sk = .error (e, trB) →
      k < n →
      trial_loop C code delta p_swap passive_objects code_lattice cv_noise decoder
        weight_options n s = .error (e, trk ++ trB) := by
  intro k
  induction k with
  | zero =>
    intro n s succ trk trB sk e hk hb hlt
    obtain ⟨n', rfl⟩ : ∃ n', n = n' + 1 := ⟨n - 1, by omega⟩
    simp only [trial_loop, Except.ok.injEq, Prod.mk.injEq] at hk
    obtain ⟨-, htrk, hsk⟩ := hk
    rw [← hsk] at hb
    rw [trial_loop]
    simp only [hb, ← htrk, List.nil_append]
  | succ k ih =>
    intro n s succ trk trB sk e hk hb hlt
    obtain ⟨n', rfl⟩ : ∃ n', n = n' + 1 := ⟨n - 1, by omega⟩
    simp only [trial_loop] at hk ⊢
    cases hbody : trial_body C code delta p_swap passive_objects code_lattice cv_noise
        decoder weight_options s with
    | error etr => simp [hbody] at hk
    | ok rts =>
      obtain ⟨r, tr1, s1⟩ := rts
      simp only [hbody] at hk
      cases hl : trial_loop C code delta p_swap passive_objects code_lattice cv_noise
          decoder weight_options k s1 with
      | error etr2 => simp [hl] at hk
      | ok sts =>
        obtain ⟨succ2, trk2, sk2⟩ := sts
        simp only [hl, Except.ok.injEq, Prod.mk.injEq] at hk
        obtain ⟨-, htrk, hsk⟩ := hk
        rw [← hsk] at hb
        have hrec := ih n' s1 succ2 trk2 trB sk2 e hl hb (by omega)
        simp only [hrec, ← htrk, List.append_assoc]

/-- C8: a collaborator exception aborts the run immediately and is
propagated to the caller unmodified: if the first `k` trials finish
normally and the `(k+1)`-st trial's body raises `e` (from the reducer or
decoder in the passive pipeline, or from state construction, noise,
measurement or decoder in the active pipeline), `ec_monte_carlo` returns
exactly that `e` — not a normal result, with no further trials, no
wrapping, no suppression and no retry. -/
theorem C8_failure_propagates_unmodified {σ ε : Type} (C : Collab σ ε) (code : Code)
    (trials : Int) (delta p_swap : Rat) (objs : PassiveObjects) (s0 sk : σ) (k : Nat)
    (succ : Int) (trk trB : List Event) (e : ε) :
    (trial_loop C code delta p_swap (some objs) 0 [] passive_decoder
        passive_weight_options k s0 = .ok (succ, trk, sk) →
      trial_body C code delta p_swap (some objs) 0 [] passive_decoder
        passive_weight_options sk = .error (e, trB) →
      k < trials.toNat →
      ec_monte_carlo C code trials delta p_swap (some objs) s0 = .error (e, trk ++ trB)) ∧
    (trial_loop C code delta p_swap none code.graph (active_cv_noise delta) active_decoder
        (active_weight_options delta) k s0 = .ok (succ, trk, sk) →
      trial_body C code delta p_swap none code.graph (active_cv_noise delta)
        active_decoder (active_weight_options delta) sk = .error (e, trB) →
      k < trials.toNat →
      ec_monte_carlo C code trials delta p_swap none s0 =
        .error (e, Event.readGraph code.graph :: (trk ++ trB))) := by
  constructor
  · intro hk hb hlt
    have hloop := trial_loop_error_prop C code delta p_swap (some objs) 0 []
      passive_decoder passive_weight_options k trials.toNat s0 succ trk trB sk e hk hb hlt
    simp only [ec_monte_carlo, hloop]
  · intro hk hb hlt
    have hloop := trial_loop_error_prop C code delta p_swap none code.graph
      (active_cv_noise delta) active_decoder (active_weight_options delta) k trials.toNat
      s0 succ trk trB sk e hk hb hlt
    simp only [ec_monte_carlo, hloop]

/-- Closed instance of C8: the decoder raises on the second of three
passive trials; the run aborts there with the exception string intact. -/
theorem C8_failure_propagates_unmodified_witness :
    ec_monte_carlo (failAtCollab 1 "boom") ⟨0, []⟩ 3 0 0 (some ⟨0, 0, 0, 0⟩) 0 =
      .error ("boom",
        [Event.reduceMacroAndSimulate ⟨0, 0, 0, 0⟩ 0 0,
         Event.correctCall ⟨0, []⟩ passive_decoder passive_weight_options] ++
        [Event.reduceMacroAndSimulate ⟨0, 0, 0, 0⟩ 0 0,
         Event.correctCall ⟨0, []⟩ passive_decoder passive_weight_options]) :=
  (C8_failure_propagates_unmodified (failAtCollab 1 "boom") ⟨0, []⟩ 3 0 0 ⟨0, 0, 0, 0⟩
    0 1 1 1
    [Event.reduceMacroAndSimulate ⟨0, 0, 0, 0⟩ 0 0,
     Event.correctCall ⟨0, []⟩ passive_decoder passive_weight_options]
    [Event.reduceMacroAndSimulate ⟨0, 0, 0, 0⟩ 0 0,
     Event.correctCall ⟨0, []⟩ passive_decoder passive_weight_options] "boom").1
    rfl rfl (by decide)

/-- C7 counterexample: on first write the header row produced by the
ledger block is not the claimed one — its sixth column is named
`errors_py`, not `errors`. -/
theorem C7_header_counterexample :
    write_results none ["2", "primal", "open", "0.01", "0.5", "30", "100", "12:00:00"] ≠
      [["distance", "ec", "boundaries", "delta", "p_swap", "errors", "trials",
        "current_time"],
       ["2", "primal", "open", "0.01", "0.5", "30", "100", "12:00:00"]] := by decide

/-- C7 (amended): on first write to the log target the ledger creates it
with the fixed 8-column header `distance, ec, boundaries, delta, p_swap,
errors_py, trials, current_time` followed by the one data row; on every
write to an existing target it appends exactly the data row and never
re-emits the header. -/
theorem C7_ledger_create_or_append (rows : List (List String)) (row : List String) :
    write_results none row = [sims_header, row] ∧
    write_results (some rows) row = rows ++ [row] ∧
    sims_header = ["distance", "ec", "boundaries", "delta", "p_swap", "errors_py",
      "trials", "current_time"] ∧
    sims_header.length = 8 :=
  ⟨rfl, rfl, rfl, rfl⟩

end FP
